import Mathlib

/-!
Verification development for the `py2scala` translator
(`src/py2scala/p2s.py`): a shallow embedding of the translator's data
model and the operations referenced by the specification, with theorems
settling each specified property.

Modelling conventions:
* Python AST values (nodes, literals, lists, `None`) are embedded as the
  inductive type `Value`; an AST node is `Value.node kind fields` where
  `fields` is the node's `_fields` association list in declaration order
  (`lineno`/`col_offset` are attributes, not `_fields` entries, and the
  matcher never reads them, so they are omitted).
* Python 2 byte strings handled by `visit_Str` are embedded as `List Char`
  restricted to code points below 256.
* The output sink is `EmitState` (current indentation column plus the
  text written so far); `wr(...)` becomes `wrStr`.
* Raised exceptions are embedded as `Except PyErr`; `NotImplementedError`
  carries its (optional) message string.  The `pdb.set_trace()` debugger
  breakpoint executed before each raise is an interactive side effect with
  no influence on the raised value and is not modelled.
* Comment reinsertion (`_sync`) only writes pending source comments; the
  embedding models translation of comment-free sources, where `_sync` is
  the identity on the output sink.
-/

namespace P2S

/-- Embedded Python value universe for the translator's AST fragment:
`None`, plain literals, Python lists, and AST nodes (kind plus `_fields`
association list). -/
inductive Value where
  | none : Value
  | int (n : Int) : Value
  | str (s : String) : Value
  | bool (b : Bool) : Value
  | list (elts : List Value) : Value
  | node (kind : String) (fields : List (String × Value)) : Value

/-- Python `==` between an arbitrary candidate and a literal pattern of
exact type `int`, `str` or `bool` (the `type(pattern) in (type(0),
type(''), type(True))` branch of `tmatch`).  Mirrors Python 2 equality:
`True == 1` and `False == 0` hold across `bool`/`int`; all other
cross-type comparisons (and comparisons against `None`, lists or AST
objects) are `False`. -/
def pyEqLit (c p : Value) : Bool :=
  match c, p with
  | .int a, .int b => a == b
  | .bool a, .int b => (if a then (1 : Int) else 0) == b
  | .int a, .bool b => a == (if b then (1 : Int) else 0)
  | .bool a, .bool b => a == b
  | .str a, .str b => a == b
  | _, _ => false

/-- Field names of a node's `_fields` association list, in order
(`candidate._fields` / `pattern._fields`). -/
def fieldNames (fs : List (String × Value)) : List String :=
  fs.map Prod.fst

mutual

/-- Embedding of `tmatch(candidate, pattern)` (p2s.py:1198).
`None` patterns match anything; `int`/`str`/`bool` patterns match by
Python equality; list patterns require a list candidate and compare the
`zip` of the two lists pairwise (so extra elements on either side are
ignored, exactly as `zip` truncates); node patterns require the same
class and the same `_fields` tuple and recurse field by field. -/
def tmatch (c p : Value) : Bool :=
  match p with
  | .none => true
  | .int _ => pyEqLit c p
  | .str _ => pyEqLit c p
  | .bool _ => pyEqLit c p
  | .list ps =>
    match c with
    | .list cs => tmatchZip cs ps
    | _ => false
  | .node pk pfs =>
    match c with
    | .node ck cfs =>
      ck == pk && fieldNames cfs == fieldNames pfs && tmatchFields cfs pfs
    | _ => false

/-- The list branch of `tmatch`:
`not [1 for (c, p) in zip(candidate, pattern) if not tmatch(c, p)]`.
`zip` stops at the shorter list. -/
def tmatchZip : List Value → List Value → Bool
  | _, [] => true
  | [], _ :: _ => true
  | c :: cs, p :: ps => tmatch c p && tmatchZip cs ps

/-- The node-field branch of `tmatch`:
`not [n for n in pattern._fields if not tmatch(getattr(candidate, n),
getattr(pattern, n))]`.  It is reached only after `candidate._fields ==
pattern._fields`, under which positional pairing coincides with
`getattr` lookup (Python attribute names are unique). -/
def tmatchFields : List (String × Value) → List (String × Value) → Bool
  | _, [] => true
  | [], _ :: _ => true
  | c :: cs, p :: ps => tmatch c.2 p.2 && tmatchFields cs ps

end

mutual

/-- Reflexivity: `tmatch(x, x)` holds for every embedded value: an equal literal copy
of a tree always matches it. -/
theorem tmatch_refl : (x : Value) → tmatch x x = true
  | .none => rfl
  | .int _ => by simp [tmatch, pyEqLit]
  | .str _ => by simp [tmatch, pyEqLit]
  | .bool _ => by simp [tmatch, pyEqLit]
  | .list cs => by
      show tmatch (.list cs) (.list cs) = true
      rw [tmatch]
      exact tmatchZip_refl cs
  | .node k fs => by
      show tmatch (.node k fs) (.node k fs) = true
      rw [tmatch]
      simp [tmatchFields_refl fs]

theorem tmatchZip_refl : (xs : List Value) → tmatchZip xs xs = true
  | [] => rfl
  | x :: xs => by
      rw [tmatchZip]
      simp [tmatch_refl x, tmatchZip_refl xs]

theorem tmatchFields_refl :
    (fs : List (String × Value)) → tmatchFields fs fs = true
  | [] => rfl
  | f :: fs => by
      rw [tmatchFields]
      simp [tmatch_refl f.2, tmatchFields_refl fs]

end

/-! ## Exceptions, output sink, keyword fixing -/

/-- Exceptions raised by the translator core.  `notImplemented msg`
embeds `NotImplementedError` together with its message
(`Option.none` when the error is raised with no arguments, as
`limitation` does). -/
inductive PyErr where
  | notImplemented (msg : Option String) : PyErr
  | implementationDetail : PyErr
deriving DecidableEq, Repr

/-- Embedding of `limitation(t)` (p2s.py:1216): when `t` is falsy it
raises a bare `NotImplementedError` (no message, hence neither source
position nor node kind).  The preceding `pdb.set_trace()` breakpoint is
an interactive side effect and is not modelled. -/
def limitation (t : Bool) : Except PyErr Unit :=
  if t then .ok () else .error (.notImplemented Option.none)

/-- The message built by `PyToScala.generic_visit` (p2s.py:1188) for a
node with no registered visitor: `'need visitor for: %s %s' %
(node.__class__.__name__, node)`.  The second `%s` is CPython's default
object repr `<_ast.Kind object at 0xADDR>`; the runtime address is taken
as the parameter `addr`. -/
def genericVisitMsg (addr : String) (kind : String) : String :=
  "need visitor for: " ++ kind ++ " <_ast." ++ kind ++ " object at " ++ addr ++ ">"

/-- Python-side class name of an embedded value (only the `node` case is
ever reached by `generic_visit`). -/
def kindOf : Value → String
  | .none => "NoneType"
  | .int _ => "int"
  | .str _ => "str"
  | .bool _ => "bool"
  | .list _ => "list"
  | .node k _ => k

/-- Embedding of `PyToScala.generic_visit` (p2s.py:1188): raises
`NotImplementedError` whose message names the node's class but carries
no source position.  (The `import pdb; pdb.set_trace()` line before the
raise is not modelled.) -/
def genericVisit (addr : String) (node : Value) : Except PyErr Unit :=
  .error (.notImplemented (some (genericVisitMsg addr (kindOf node))))

/-- The output sink: current indentation column (`self._col`) plus the
text written so far.  The column is an `Int` exactly like the Python
attribute. -/
structure EmitState where
  col : Int
  out : String
deriving DecidableEq, Repr

/-- Embedding of `self._out.write(t)`. -/
def wrStr (t : String) (s : EmitState) : EmitState :=
  { s with out := s.out ++ t }

/-- Embedding of `' ' * n` (empty for non-positive `n`, as in Python). -/
def spacesStr (n : Int) : String :=
  String.mk (List.replicate n.toNat ' ')

/-- Embedding of `LineSyntax.newline` (p2s.py:101): write a newline then the current
indentation. -/
def pyNewline (s : EmitState) : EmitState :=
  wrStr (spacesStr s.col) (wrStr "\n" s)

/-- Embedding of `fix_kw(n)` (p2s.py:1194):
`n + ('_' if n in ('match',) else '')`. -/
def fix_kw (n : String) : String :=
  n ++ (if n = "match" then "_" else "")

/-! ## Blocks and suites -/

/-- Embedding of the `LineSyntax._block` context manager (p2s.py:90).
The body is an action that may raise (`Option ε` component carries the
exception if any).  On entry `self._col += 2`, `wr('{\n')`,
`wr(' ' * self._col)`; after a *normal* body completion `self._col -= 2`,
`wr('}\n')`, `wr(' ' * self._col)`.  Because the generator has no
`try/finally` around its `yield`, an exception raised by the body
propagates without running the epilogue: the column is left incremented
and the closing brace is never written. -/
def pyBlock (body : EmitState → Option ε × EmitState) (s : EmitState) :
    Option ε × EmitState :=
  let s1 : EmitState := { s with col := s.col + 2 }
  let s2 := wrStr (spacesStr s1.col) (wrStr "\x7b\n" s1)
  match body s2 with
  | (some e, t) => (some e, t)
  | (Option.none, t) =>
      let t1 : EmitState := { t with col := t.col - 2 }
      (Option.none, wrStr (spacesStr t1.col) (wrStr "\x7d\n" t1))

/-- The `_block` context manager specialised to a body that cannot raise. -/
def blockT (body : EmitState → EmitState) (s : EmitState) : EmitState :=
  (pyBlock (fun t => ((Option.none : Option Unit), body t)) s).2

/-- Embedding of `PyToScala._suite` (p2s.py:577): a block that visits
each statement in order. -/
def suiteEmit (visit : Value → EmitState → EmitState) (body : List Value)
    (s : EmitState) : EmitState :=
  blockT (fun t => body.foldl (fun acc stmt => visit stmt acc) t) s

/-! ## AST helpers and a small concrete emitter -/

/-- Embedding of `getattr(v, name)` on an embedded node (used only under guards that
ensure the field exists). -/
def fieldOf (v : Value) (name : String) : Value :=
  match v with
  | .node _ fs => ((fs.lookup name).getD .none)
  | _ => .none

/-- Embedding of `isinstance(v, ast.Name)`. -/
def isNameV (v : Value) : Bool :=
  match v with
  | .node "Name" _ => true
  | _ => false

/-- Embedding of `isinstance(v, ast.Tuple)`. -/
def isTupleV (v : Value) : Bool :=
  match v with
  | .node "Tuple" _ => true
  | _ => false

/-- Field `v.elts` of a Tuple/List node. -/
def eltsOf (v : Value) : List Value :=
  match fieldOf v "elts" with
  | .list es => es
  | _ => []

/-- Field `v.id` of a Name node. -/
def idOf (v : Value) : String :=
  match fieldOf v "id" with
  | .str s => s
  | _ => ""

/-- Field `v.attr` of an Attribute node. -/
def attrOf (v : Value) : String :=
  match fieldOf v "attr" with
  | .str s => s
  | _ => ""

/-- Builder for `ast.Name(id, ctx=Store())` (an assignment target). -/
def nameSt (id : String) : Value :=
  .node "Name" [("id", .str id), ("ctx", .node "Store" [])]

/-- Builder for `ast.Name(id, ctx=Load())`. -/
def nameLd (id : String) : Value :=
  .node "Name" [("id", .str id), ("ctx", .node "Load" [])]

/-- Builder for `ast.Num(n)`. -/
def numV (n : Int) : Value :=
  .node "Num" [("n", .int n)]

/-- Builder for `ast.Tuple(elts, ctx=Store())`. -/
def tupleSt (elts : List Value) : Value :=
  .node "Tuple" [("elts", .list elts), ("ctx", .node "Store" [])]

/-- Builder for `ast.Tuple(elts, ctx=Load())`. -/
def tupleLd (elts : List Value) : Value :=
  .node "Tuple" [("elts", .list elts), ("ctx", .node "Load" [])]

/-- Text written by the translator for an atomic expression node:
`visit_Name` writes `fix_kw(node.id)` (p2s.py:1122) and `visit_Num`
writes `str(node.n)` (p2s.py:1068). -/
def atomTxt (v : Value) : String :=
  match v with
  | .node "Name" _ => fix_kw (idOf v)
  | .node "Num" _ => toString (match fieldOf v "n" with | .int n => n | _ => 0)
  | _ => ""

/-- A concrete instantiation of the translator's open-recursive
`self.visit` covering the expression fragment used in the theorems
below: Name and Num nodes via `atomTxt`, and Tuple nodes via
`visit_Tuple` (p2s.py:1132), which writes its elements
comma-separated inside parentheses. -/
def emitAtomE (v : Value) (s : EmitState) : EmitState :=
  match v with
  | .node "Tuple" _ =>
      wrStr ("(" ++ String.intercalate ", " ((eltsOf v).map atomTxt) ++ ")") s
  | _ => wrStr (atomTxt v) s

/-- Embedding of `PyToScala._items` (p2s.py:582): visit items separated
by `', '`, optionally wrapped in parentheses. -/
def itemsEmit (visit : Value → EmitState → EmitState) (items : List Value)
    (parens : Bool) (s : EmitState) : EmitState :=
  let s := if parens then wrStr "(" s else s
  let s := (items.enum).foldl
    (fun acc (p : Nat × Value) =>
      visit p.2 (if p.1 > 0 then wrStr ", " acc else acc)) s
  if parens then wrStr ")" s else s

/-! ## Assignment translation (`Assignment.assign_targets`, p2s.py:383) -/

/-- The pattern `ast.Name(id='var', ctx=ast.Store())` built inline at
p2s.py:402. -/
def varNamePat : Value :=
  .node "Name" [("id", .str "var"), ("ctx", .node "Store" [])]

/-- The pattern `ast.Attribute(value=ast.Name(id='self', ctx=ast.Load()),
attr=None, ctx=ast.Store())` built inline at p2s.py:375. -/
def selfAttrPat : Value :=
  .node "Attribute"
    [("value", .node "Name" [("id", .str "self"), ("ctx", .node "Load" [])]),
     ("attr", .none), ("ctx", .node "Store" [])]

/-- Embedding of `ClassStructure.assign_field` (p2s.py:369): inside a
class body (`['ClassDef'] == self._def_stack[-1:]`), a single
`self.attr = ...` target is promoted to the field name list
`[targets[0].attr]`; otherwise `[]`. -/
def assign_field (defStack : List String) (targets : List Value) :
    List String :=
  if defStack.getLast? = some "ClassDef" ∧ targets.length = 1 ∧
      tmatch (targets.getD 0 .none) selfAttrPat = true then
    [attrOf (targets.getD 0 .none)]
  else []

/-- The `names` computation of `assign_targets` (p2s.py:391): a single
Name target, or the elements of a single all-Name Tuple target,
otherwise `[]`. -/
def namesOf (targets : List Value) : List Value :=
  if targets.length = 1 ∧ isNameV (targets.getD 0 .none) = true then
    [targets.getD 0 .none]
  else if targets.length = 1 ∧ isTupleV (targets.getD 0 .none) = true ∧
      (eltsOf (targets.getD 0 .none)).all isNameV = true then
    eltsOf (targets.getD 0 .none)
  else []

/-- Embedding of `Assignment.assign_targets` (p2s.py:383).  Field
promotion first; then the `var` mutable-destructure convention (the
value must be a Tuple literal with more than one element — checked by
two `limitation` calls — after which the sentinel and the value's first
element are discarded); then `val`-binding of plain names; else a direct
assignment of the targets.  Returns the output state together with the
value node the caller (`visit_Assign`) must visit after writing
`' = '`. -/
def assignTargets (defStack : List String)
    (visit : Value → EmitState → EmitState) (targets : List Value)
    (value : Value) (s : EmitState) : Except PyErr (EmitState × Value) :=
  let field1 := assign_field defStack targets
  if field1 ≠ [] then
    .ok (field1.foldl (fun acc f => wrStr ("var " ++ f) acc) s, value)
  else
    let names := namesOf targets
    if names.length > 0 ∧ tmatch (names.getD 0 .none) varNamePat = true then
      match limitation (isTupleV value) with
      | .error e => .error e
      | .ok _ =>
        match limitation ((eltsOf value).length > 1 : Bool) with
        | .error e => .error e
        | .ok _ =>
          let s1 := wrStr "var " s
          let s2 := itemsEmit visit (names.drop 1) (names.length > 2) s1
          .ok (s2, .node "Tuple" [("elts", .list ((eltsOf value).drop 1))])
    else if names.length > 0 then
      .ok (itemsEmit visit names (names.length > 1) (wrStr "val " s), value)
    else
      .ok (itemsEmit visit targets (targets.length > 1) s, value)

/-- Embedding of `PyToScala.visit_Assign` (p2s.py:652): delegate to
`assign_targets`, write `' = '`, visit the returned value, newline. -/
def visitAssign (defStack : List String)
    (visit : Value → EmitState → EmitState) (targets : List Value)
    (value : Value) (s : EmitState) : Except PyErr EmitState :=
  match assignTargets defStack visit targets value s with
  | .error e => .error e
  | .ok (s1, x) => .ok (pyNewline (visit x (wrStr " = " s1)))

/-! ## Comparison chains (`PyToScala.visit_Compare`, p2s.py:1000) -/

/-- The source comparison operators:
`cmpop = Eq | NotEq | Lt | LtE | Gt | GtE | Is | IsNot | In | NotIn`. -/
inductive CmpOp where
  | Eq | NotEq | Lt | LtE | Gt | GtE | Is | IsNot | In | NotIn
deriving DecidableEq, Repr

/-- The operator-symbol dictionary of `visit_Compare` (p2s.py:1018):
note `Is ↦ 'eq'` (the target's reference-equality operator) and
`IsNot ↦ '!='`.  `In`/`NotIn` never reach this dictionary. -/
def cmpSym : CmpOp → String
  | .Eq => "=="
  | .NotEq => "!="
  | .Lt => "<"
  | .LtE => "<="
  | .Gt => ">"
  | .GtE => ">="
  | .Is => "eq"
  | .IsNot => "!="
  | .In => ""
  | .NotIn => ""

/-- The loop body of `visit_Compare`: `origLeft` is `node.left` (used as
the `.contains` argument for *every* membership test in the chain),
`left` the running left operand, `sep` starts empty and becomes
`' && '`. -/
def visitCompareAux (visit : Value → EmitState → EmitState)
    (origLeft : Value) : Value → List (CmpOp × Value) → String →
    EmitState → EmitState
  | _, [], _, s => s
  | left, (op, e) :: rest, sep, s =>
    let s := wrStr sep s
    let s :=
      match op with
      | .In | .NotIn =>
        let s := if op = .NotIn then wrStr "! " s else s
        wrStr ")" (visit origLeft (wrStr ".contains(" (visit e s)))
      | _ => visit e (wrStr (" " ++ cmpSym op ++ " ") (visit left s))
    visitCompareAux visit origLeft e rest " && " s

/-- Embedding of `PyToScala.visit_Compare` (p2s.py:1000): each pairwise
comparison of the chain is emitted in turn, joined by `' && '`;
membership tests become `right.contains(node.left)` (prefixed `'! '`
for `not in`); all other operators use the `cmpSym` table. -/
def visitCompare (visit : Value → EmitState → EmitState) (left : Value)
    (ops : List CmpOp) (comparators : List Value) (s : EmitState) :
    EmitState :=
  visitCompareAux visit left left (ops.zip comparators) "" s

/-! ## While loops (`PyToScala.visit_While`, p2s.py:714) -/

/-- Embedding of `PyToScala.visit_While` (p2s.py:714):
`limitation(not node.orelse)` — a while-loop with an else-suite is
rejected outright — then `while (test) ` and the body suite.  No
boolean flag is ever emitted here. -/
def visitWhile (visit : Value → EmitState → EmitState) (test : Value)
    (body orelse : List Value) (s : EmitState) : Except PyErr EmitState :=
  match limitation orelse.isEmpty with
  | .error e => .error e
  | .ok _ =>
      .ok (suiteEmit visit body (wrStr ") " (visit test (wrStr "while (" s))))

/-! ## For loops with else (`PyToScala.visit_For`, p2s.py:685) -/

/-- Embedding of `PyToScala.visit_For` (p2s.py:685).  When an else-suite
is present the translator picks the flag name `'any_iter%s' % id(node.orelse)`
(the CPython object identity, taken here as the parameter `oid`), writes
`var FLAG = false` before the loop, makes `FLAG = true` the first
statement of the loop body, and guards the else-suite with
`if (! FLAG)` after the loop. -/
def visitFor (visit : Value → EmitState → EmitState) (oid : Nat)
    (target iter : Value) (body orelse : List Value) (s : EmitState) :
    EmitState :=
  let elsevars := if orelse.isEmpty then [] else
    ["any_iter" ++ toString oid]
  let s := elsevars.foldl
    (fun acc ev => pyNewline (wrStr ("var " ++ ev ++ " = false") acc)) s
  let s := wrStr ") " (visit iter (wrStr " <- " (visit target (wrStr "for (" s))))
  let s := blockT
    (fun t =>
      let t := elsevars.foldl
        (fun acc ev => pyNewline (wrStr (ev ++ " = true") acc)) t
      body.foldl (fun acc stmt => visit stmt acc) t) s
  elsevars.foldl
    (fun acc ev => suiteEmit visit orelse (wrStr ("if (! " ++ ev ++ ")") acc)) s

/-- Executable model of the generated loop-with-else pattern: the flag
starts `false`; each iteration first sets it `true`, then runs the body,
which may exit the loop early (`brk x = true`).  Returns the flag's value
after the loop. -/
def runLoopFlag (brk : α → Bool) : List α → Bool → Bool
  | [], flag => flag
  | x :: xs, _ =>
      let flag := true
      if brk x then flag else runLoopFlag brk xs flag

/-- The generated guard `if (! FLAG)`: whether the else-suite runs. -/
def elseRuns (iters : List α) (brk : α → Bool) : Bool :=
  ! runLoopFlag brk iters false

/-! ## Names and attributes (`visit_Name` p2s.py:1122, `visit_Attribute`
p2s.py:1076) -/

/-- Embedding of `PyToScala.visit_Name`: write `fix_kw(node.id)`. -/
def visitName (id : String) (s : EmitState) : EmitState :=
  wrStr (fix_kw id) s

/-- Embedding of `PyToScala.visit_Attribute`: visit the value, write
`'.'`, then `fix_kw(node.attr)`. -/
def visitAttribute (visit : Value → EmitState → EmitState) (value : Value)
    (attr : String) (s : EmitState) : EmitState :=
  wrStr (fix_kw attr) (wrStr "." (visit value s))

/-! ## Binary operators (`PyToScala._op`, p2s.py:902) -/

/-- The source binary operators, `operator = Add | Sub | ...`. -/
inductive BinOpKind where
  | Add | Sub | Mult | Div | Mod | Pow | LShift | RShift
  | BitOr | BitXor | BitAnd | FloorDiv
deriving DecidableEq, Repr

/-- Embedding of `PyToScala._op` (p2s.py:902): `limitation(cls in
self.operator)` then the table lookup.  `BitXor` and `FloorDiv` are
commented out of the table (p2s.py:893), so they fail — with a bare
`NotImplementedError` naming neither the operator nor the node. -/
def opSym : BinOpKind → Except PyErr String
  | .Add => .ok "+"
  | .Sub => .ok "-"
  | .Mult => .ok "*"
  | .Div => .ok "/"
  | .Mod => .ok "%"
  | .Pow => .ok "**"
  | .LShift => .ok "<<"
  | .RShift => .ok ">>"
  | .BitOr => .ok "|"
  | .BitAnd => .ok "&"
  | .BitXor => .error (.notImplemented Option.none)
  | .FloorDiv => .error (.notImplemented Option.none)

/-! ## Text literals (`PyToScala.visit_Str`, p2s.py:1072)

`wr('"' + node.s.encode("string_escape").replace('"', '\\"') + '"')` —
Python 2 byte strings are modelled as `List Char` (code points < 256). -/

/-- The double-quote character. -/
def dqChar : Char := Char.ofNat 34

/-- The single-quote character. -/
def sqChar : Char := Char.ofNat 39

/-- The backslash character. -/
def bsChar : Char := '\\'

/-- Lowercase hexadecimal digit (for `\x%02x`). -/
def hexDigit (n : Nat) : Char :=
  if n < 10 then Char.ofNat (48 + n) else Char.ofNat (87 + n)

/-- One byte of CPython 2's `string_escape` codec (`escape_encode`,
which reprs with quote character `'`): escape the single quote and the
backslash, then `\t`, `\n`, `\r`, then non-printable bytes as `\xhh`;
everything else is passed through — in particular the double quote is
*not* escaped here. -/
def escByte (c : Char) : List Char :=
  if c = sqChar ∨ c = bsChar then [bsChar, c]
  else if c = '\t' then [bsChar, 't']
  else if c = '\n' then [bsChar, 'n']
  else if c = '\r' then [bsChar, 'r']
  else if c.toNat < 32 ∨ c.toNat ≥ 127 then
    [bsChar, 'x', hexDigit (c.toNat / 16 % 16), hexDigit (c.toNat % 16)]
  else [c]

/-- Embedding of `s.encode("string_escape")`. -/
def stringEscape (s : List Char) : List Char :=
  (s.map escByte).flatten

/-- Embedding of the `.replace` of a double quote by a backslash-escaped
double quote — the pattern is a single character, so the
replacement acts byte-wise. -/
def escDq (s : List Char) : List Char :=
  (s.map (fun c => if c = dqChar then [bsChar, dqChar] else [c])).flatten

/-- Embedding of `PyToScala.visit_Str` (p2s.py:1072): the text written
for a Str node.  There is no branch on the text's content: every text
literal is emitted between two double quotes, and nothing is raised. -/
def visitStrOut (s : List Char) : List Char :=
  dqChar :: (escDq (stringEscape s) ++ [dqChar])

/-! ## The documentation type resolver (`TypeDecls.parse_types`,
p2s.py:171)

The four `re.findall` patterns are embedded by a small backtracking
matcher.  Each pattern is a sequence of atoms: a literal, or a greedy
`+`/`*` over a character class, optionally capturing.  Greedy means the
longest munch is tried first, backtracking downwards — exactly Python
`re` semantics for these patterns.  `re.MULTILINE` only alters `^`/`$`,
which none of the patterns use. -/

/-- Class `\s` (ASCII, as for Python 2 `str` patterns). -/
def wsC (c : Char) : Bool :=
  c = ' ' || c = '\t' || c = '\n' || c = '\r' ||
  c = Char.ofNat 11 || c = Char.ofNat 12

/-- Class `\w` (ASCII, no `re.UNICODE`): `[a-zA-Z0-9_]`. -/
def wordC (c : Char) : Bool :=
  c.isAlphanum || c = '_'

/-- Class `\S`. -/
def nonwsC (c : Char) : Bool :=
  ! wsC c

/-- Class `.` without `re.DOTALL`: any character except newline. -/
def dotC (c : Char) : Bool :=
  c ≠ '\n'

/-- One atom of an embedded regular expression. -/
inductive Atom where
  | lit (s : List Char) : Atom
  | plus (cls : Char → Bool) : Atom
  | star (cls : Char → Bool) : Atom
  | gplus (cls : Char → Bool) : Atom
  | gstar (cls : Char → Bool) : Atom

/-- Length of the maximal munch of a character class. -/
def munchLen (cls : Char → Bool) : List Char → Nat
  | [] => 0
  | c :: cs => if cls c then munchLen cls cs + 1 else 0

/-- Backtracking driver: try `f` at `k, k-1, …, lo` (greedy order),
returning the first success. -/
def tryDown (f : Nat → Option α) (lo : Nat) : Nat → Option α
  | 0 => if lo = 0 then f 0 else Option.none
  | k + 1 =>
      if k + 1 < lo then Option.none
      else
        match f (k + 1) with
        | some r => some r
        | Option.none => tryDown f lo k

/-- Match a sequence of atoms at the start of `s`, returning the list of
captured groups (in order) and the remaining input.  Quantifiers are
greedy with backtracking via `tryDown`. -/
def matchAtoms : List Atom → List Char → Option (List (List Char) × List Char)
  | [], s => some ([], s)
  | .lit l :: rest, s =>
      if s.take l.length = l then matchAtoms rest (s.drop l.length)
      else Option.none
  | .plus cls :: rest, s =>
      tryDown (fun k => matchAtoms rest (s.drop k)) 1 (munchLen cls s)
  | .star cls :: rest, s =>
      tryDown (fun k => matchAtoms rest (s.drop k)) 0 (munchLen cls s)
  | .gplus cls :: rest, s =>
      tryDown (fun k => (matchAtoms rest (s.drop k)).map
        (fun r => (s.take k :: r.1, r.2))) 1 (munchLen cls s)
  | .gstar cls :: rest, s =>
      tryDown (fun k => (matchAtoms rest (s.drop k)).map
        (fun r => (s.take k :: r.1, r.2))) 0 (munchLen cls s)

/-- Embedding of `re.findall`: scan left to right; on a match continue after it, on a
failure advance one character.  The fuel is bounded by the input length;
every pattern used here begins with a nonempty literal and therefore
consumes at least one character per match. -/
def findAllAux (ats : List Atom) : Nat → List Char → List (List (List Char))
  | 0, _ => []
  | _ + 1, [] =>
      match matchAtoms ats [] with
      | some r => [r.1]
      | Option.none => []
  | fuel + 1, c :: t =>
      match matchAtoms ats (c :: t) with
      | some r => r.1 :: findAllAux ats fuel r.2
      | Option.none => findAllAux ats fuel t

/-- Embedding of `re.findall(pattern, txt)` for the embedded patterns. -/
def findAll (ats : List Atom) (s : List Char) : List (List (List Char)) :=
  findAllAux ats (s.length + 1) s

/-- Pattern `':type\s+(\w+):\s+(.*)'`. -/
def reTypePat : List Atom :=
  [.lit ":type".data, .plus wsC, .gplus wordC, .lit ":".data,
   .plus wsC, .gstar dotC]

/-- Pattern `':param\s+(\S+)\s+(\w+):'`. -/
def reParamPat : List Atom :=
  [.lit ":param".data, .plus wsC, .gplus nonwsC, .plus wsC,
   .gplus wordC, .lit ":".data]

/-- Pattern `':rtype:\s+(.*)'`. -/
def reRtypePat : List Atom :=
  [.lit ":rtype:".data, .plus wsC, .gstar dotC]

/-- Pattern `':forall:\s+(.*)'`. -/
def reForallPat : List Atom :=
  [.lit ":forall:".data, .plus wsC, .gstar dotC]

/-- Embedding of `TypeDecls.parse_types(txt)` (p2s.py:171): parameter
types from the `:type name: T` matches followed by the swapped
`:param T name:` matches; the first `:rtype:` match (or none); the first
`:forall:` match bracketed (or the empty string). -/
def parse_types (txt : String) :
    List (String × String) × Option String × String :=
  let t := txt.data
  let a1 := (findAll reTypePat t).map
    (fun caps => ((⟨caps.getD 0 []⟩ : String), (⟨caps.getD 1 []⟩ : String)))
  let a2 := (findAll reParamPat t).map
    (fun caps => ((⟨caps.getD 1 []⟩ : String), (⟨caps.getD 0 []⟩ : String)))
  let rtypes := (findAll reRtypePat t).map
    (fun caps => (⟨caps.getD 0 []⟩ : String))
  let foralls := (findAll reForallPat t).map
    (fun caps => (⟨caps.getD 0 []⟩ : String))
  (a1 ++ a2,
   rtypes.head?,
   match foralls.head? with
   | some f => "[" ++ f ++ "]"
   | Option.none => "")

/-! ## Supporting lemmas -/

/-- The flag stays set once an iteration has run. -/
theorem runLoopFlag_true (brk : α → Bool) :
    ∀ xs : List α, runLoopFlag brk xs true = true := by
  intro xs
  induction xs with
  | nil => rfl
  | cons x xs ih =>
      rw [runLoopFlag]
      split <;> simp [ih]

/-- The generated else-guard fires exactly when the loop iterated zero
times, whatever early exits the body takes. -/
theorem elseRuns_eq_isEmpty (iters : List α) (brk : α → Bool) :
    elseRuns iters brk = iters.isEmpty := by
  cases iters with
  | nil => rfl
  | cons x xs =>
      rw [elseRuns, runLoopFlag]
      split <;> simp [runLoopFlag_true]

/-- Unfolding `escDq` one character at a time. -/
theorem escDq_cons (x : Char) (xs : List Char) :
    escDq (x :: xs) =
      (if x = dqChar then [bsChar, dqChar] else [x]) ++ escDq xs := by
  simp [escDq]

/-- Distribution of `escDq` over append. -/
theorem escDq_append (a b : List Char) :
    escDq (a ++ b) = escDq a ++ escDq b := by
  simp [escDq]

/-- The escaped-and-quote-fixed form of any source byte is nonempty and
never begins with a double quote. -/
theorem escDq_escByte_head (c : Char) :
    ∃ h t, escDq (escByte c) = h :: t ∧ h ≠ dqChar := by
  have hbs : bsChar ≠ dqChar := by decide
  rw [escByte]
  split_ifs with h1 h2 h3 h4 h5
  · have hc : c ≠ dqChar := by
      rcases h1 with h | h <;> subst h <;> decide
    exact ⟨bsChar, [c], by simp [escDq, hc, hbs], hbs⟩
  · exact ⟨bsChar, ['t'],
      by simp [escDq, hbs, (by decide : ('t' : Char) ≠ dqChar)], hbs⟩
  · exact ⟨bsChar, ['n'],
      by simp [escDq, hbs, (by decide : ('n' : Char) ≠ dqChar)], hbs⟩
  · exact ⟨bsChar, ['r'],
      by simp [escDq, hbs, (by decide : ('r' : Char) ≠ dqChar)], hbs⟩
  · have hlt : ∀ n : Nat, n % 16 < 16 := fun n => Nat.mod_lt _ (by norm_num)
    have hne : ∀ n < 16, hexDigit n ≠ dqChar := by decide
    have hd1 := hne _ (hlt (c.toNat / 16))
    have hd2 := hne _ (hlt c.toNat)
    exact ⟨bsChar, ['x', hexDigit (c.toNat / 16 % 16), hexDigit (c.toNat % 16)],
      by simp [escDq, hd1, hd2, hbs, (by decide : ('x' : Char) ≠ dqChar)], hbs⟩
  · by_cases hc : c = dqChar
    · exact ⟨bsChar, [dqChar], by simp [escDq, hc, hbs], hbs⟩
    · exact ⟨c, [], by simp [escDq, hc], hc⟩

/-- The `var`-destructure branch of `assign_targets` for the target
`var, a, b`, exposed as the two `limitation` checks followed by the
mutable binding of `a, b` and the trimmed value tuple. -/
theorem assign_var_abz (value : Value)
    (visit : Value → EmitState → EmitState) (s : EmitState) :
    assignTargets [] visit [tupleSt [nameSt "var", nameSt "a", nameSt "b"]]
        value s =
      match limitation (isTupleV value) with
      | .error e => .error e
      | .ok _ =>
        match limitation (decide (1 < (eltsOf value).length)) with
        | .error e => .error e
        | .ok _ =>
            .ok (itemsEmit visit [nameSt "a", nameSt "b"] true (wrStr "var " s),
              .node "Tuple" [("elts", .list ((eltsOf value).drop 1))]) :=
  rfl

/-! ## Claim theorems -/

/-- C1 counterexample: two sequences of *different* lengths on which
`tmatch` nevertheless returns true — `zip` truncates to the shorter
list, so the empty candidate sequence matches the template `[0]`. -/
theorem tmatch_difflen_counterexample :
    tmatch (Value.list []) (Value.list [Value.int 0]) = true ∧
    List.length ([] : List Value) ≠ List.length [Value.int 0] := by
  exact ⟨by decide, by decide⟩

/-- C1 (amended): `tmatch` is total by construction; a `None` template
matches anything; an equal literal copy always matches; sequence
templates match pairwise over the `zip` of the two sequences, so when
either side is exhausted the rest is ignored (differing lengths can
match); and node templates require the same kind and `_fields` set. -/
theorem tmatch_contract :
    (∀ x, tmatch x Value.none = true) ∧
    (∀ x, tmatch x x = true) ∧
    (∀ c p cs ps, tmatch (Value.list (c :: cs)) (Value.list (p :: ps)) =
      (tmatch c p && tmatch (Value.list cs) (Value.list ps))) ∧
    (∀ ps, tmatch (Value.list []) (Value.list ps) = true) ∧
    (∀ cs, tmatch (Value.list cs) (Value.list []) = true) ∧
    (∀ ck pk cfs pfs,
      tmatch (Value.node ck cfs) (Value.node pk pfs) = true →
      ck = pk ∧ fieldNames cfs = fieldNames pfs) := by
  refine ⟨fun x => by rw [tmatch], tmatch_refl, ?_, ?_, ?_, ?_⟩
  · intro c p cs ps
    rw [tmatch, tmatch, tmatchZip]
  · intro ps
    cases ps <;> rfl
  · intro cs
    rw [tmatch]
    cases cs <;> rfl
  · intro ck pk cfs pfs h
    rw [tmatch] at h
    simp only [Bool.and_eq_true, beq_iff_eq] at h
    exact ⟨h.1.1, h.1.2⟩

/-- C1 witness: the node-kind necessity applied at a concrete matching
pair. -/
theorem tmatch_contract_witness :
    ("Name" : String) = "Name" ∧
    fieldNames [("id", Value.str "x")] = fieldNames [("id", Value.str "x")] :=
  tmatch_contract.2.2.2.2.2 "Name" "Name"
    [("id", Value.str "x")] [("id", Value.str "x")] (by decide)

/-- C2 counterexample: `var, a, b = z, 1` does *not* fail — the value
tuple `(z, 1)` has two elements, so `limitation(len(...) > 1)` passes
and the translation succeeds, emitting `var (a, b) = (1)`. -/
theorem assign_var_two_values_counterexample :
    visitAssign [] emitAtomE [tupleSt [nameSt "var", nameSt "a", nameSt "b"]]
        (tupleLd [nameLd "z", numV 1]) ⟨0, ""⟩ =
      Except.ok ⟨0, "var (a, b) = (1)\n"⟩ :=
  rfl

/-- C2 (amended): the `var`-destructure of `var, a, b = …` fails exactly
when the right-hand value is not a Tuple literal or has at most one
element; `var, a, b = z, 1, 2` yields `var (a, b) = (1, 2)`;
`var, a, b = z, 1` (two value elements) also succeeds, yielding
`var (a, b) = (1)`; a non-tuple value or a one-element tuple value is an
UnsupportedConstruct. -/
theorem assign_var_contract :
    (∀ value s,
      (assignTargets [] emitAtomE
          [tupleSt [nameSt "var", nameSt "a", nameSt "b"]] value s =
        Except.error (PyErr.notImplemented Option.none)) ↔
      ((isTupleV value && decide (1 < (eltsOf value).length)) = false)) ∧
    (visitAssign [] emitAtomE [tupleSt [nameSt "var", nameSt "a", nameSt "b"]]
        (tupleLd [nameLd "z", numV 1, numV 2]) ⟨0, ""⟩ =
      Except.ok ⟨0, "var (a, b) = (1, 2)\n"⟩) ∧
    (visitAssign [] emitAtomE [tupleSt [nameSt "var", nameSt "a", nameSt "b"]]
        (nameLd "z") ⟨0, ""⟩ =
      Except.error (PyErr.notImplemented Option.none)) ∧
    (visitAssign [] emitAtomE [tupleSt [nameSt "var", nameSt "a", nameSt "b"]]
        (tupleLd [nameLd "z"]) ⟨0, ""⟩ =
      Except.error (PyErr.notImplemented Option.none)) := by
  refine ⟨?_, rfl, rfl, rfl⟩
  intro value s
  rw [assign_var_abz]
  cases h1 : isTupleV value with
  | false => simp [limitation]
  | true =>
      cases h2 : decide (1 < (eltsOf value).length) with
      | false => simp [limitation, h2]
      | true => simp [limitation, h2]

/-- C3 counterexample: the identity comparison `a is b` is emitted as
`a eq b` — the target's *reference*-equality operator — not as the
value-equality operator `==`. -/
theorem compare_is_counterexample :
    (visitCompare emitAtomE (nameLd "a") [CmpOp.Is] [nameLd "b"]
        ⟨0, ""⟩).out = "a eq b" ∧
    "a eq b" ≠ "a == b" := by
  exact ⟨rfl, by decide⟩

/-- C3 (amended): pairwise comparisons of a chain are conjoined with
`' && '`; membership tests become a `.contains` call on the right
operand (taking the chain's *first* left operand as argument), negated
with `'! '` for `not in`; `==`/`!=`/orderings map to themselves; `is`
maps to the reference-equality operator `eq` and `is not` to the
value-inequality operator `!=`. -/
theorem compare_contract :
    ((visitCompare emitAtomE (nameLd "a") [CmpOp.Lt, CmpOp.Lt]
        [nameLd "b", nameLd "c"] ⟨0, ""⟩).out = "a < b && b < c") ∧
    ((visitCompare emitAtomE (nameLd "x") [CmpOp.In] [nameLd "ys"]
        ⟨0, ""⟩).out = "ys.contains(x)") ∧
    ((visitCompare emitAtomE (nameLd "x") [CmpOp.NotIn] [nameLd "ys"]
        ⟨0, ""⟩).out = "! ys.contains(x)") ∧
    ((visitCompare emitAtomE (nameLd "a") [CmpOp.Eq] [nameLd "b"]
        ⟨0, ""⟩).out = "a == b") ∧
    ((visitCompare emitAtomE (nameLd "a") [CmpOp.Is] [nameLd "b"]
        ⟨0, ""⟩).out = "a eq b") ∧
    ((visitCompare emitAtomE (nameLd "a") [CmpOp.IsNot] [nameLd "b"]
        ⟨0, ""⟩).out = "a != b") ∧
    ((visitCompare emitAtomE (nameLd "a") [CmpOp.Lt, CmpOp.In]
        [nameLd "b", nameLd "c"] ⟨0, ""⟩).out = "a < b && c.contains(a)") :=
  ⟨rfl, rfl, rfl, rfl, rfl, rfl, rfl⟩

/-- C4 counterexample: a text containing a double quote is *not*
rendered triple-quoted — `a"b` becomes the double-quoted escaped literal
`"a\"b"` — and a text consisting of the triple-quote sequence itself
does not fail: it is emitted as `"\"\"\""`. -/
theorem str_quote_counterexample :
    visitStrOut ['a', dqChar, 'b'] =
      [dqChar, 'a', bsChar, dqChar, 'b', dqChar] ∧
    (visitStrOut ['a', dqChar, 'b']).take 3 ≠ [dqChar, dqChar, dqChar] ∧
    visitStrOut [dqChar, dqChar, dqChar] =
      [dqChar, bsChar, dqChar, bsChar, dqChar, bsChar, dqChar, dqChar] := by
  exact ⟨by decide, by decide, by decide⟩

/-- C4 (amended): `visit_Str` always renders a double-quoted literal —
the text is `string_escape`-encoded and double quotes are
backslash-escaped — never a triple-quoted one (the output never begins
with `"""`), and no text literal is rejected: the function is total with
no `limitation` call. -/
theorem str_always_double_quoted :
    (∀ s, List.isPrefixOf [dqChar, dqChar, dqChar] (visitStrOut s) = false) ∧
    visitStrOut ['a', dqChar, 'b'] =
      [dqChar, 'a', bsChar, dqChar, 'b', dqChar] ∧
    visitStrOut ['a', bsChar, 'b'] =
      [dqChar, 'a', bsChar, bsChar, 'b', dqChar] := by
  refine ⟨?_, by decide, by decide⟩
  intro s
  cases s with
  | nil => decide
  | cons c cs =>
      obtain ⟨h, t, heq, hne⟩ := escDq_escByte_head c
      have hout : visitStrOut (c :: cs) =
          dqChar :: h :: (t ++ (escDq (stringEscape cs) ++ [dqChar])) := by
        rw [visitStrOut]
        have : stringEscape (c :: cs) = escByte c ++ stringEscape cs := by
          simp [stringEscape]
        rw [this, escDq_append, heq]
        simp
      rw [hout]
      have hdq : (dqChar == h) = false := by
        simp [beq_eq_false_iff_ne]
        exact fun hh => hne hh.symm
      simp [List.isPrefixOf, hdq]

/-- C5: the for-loop-with-else translation — flag initialised false
before the loop, set true as the first statement of the body, else-suite
guarded by `if (! flag)` after the loop — and the semantic consequence:
the generated guard runs the else-suite exactly when the loop iterated
zero times, for every possible early-exit behaviour of the body. -/
theorem for_else_contract :
    (visitFor emitAtomE 7 (nameLd "x") (nameLd "xs") [nameLd "b"]
        [nameLd "e"] ⟨0, ""⟩ =
      ⟨0, "var any_iter7 = false\nfor (x <- xs) \x7b\n  any_iter7 = true\n  b\x7d\nif (! any_iter7)\x7b\n  e\x7d\n"⟩) ∧
    (∀ (α : Type) (iters : List α) (brk : α → Bool),
      elseRuns iters brk = iters.isEmpty) := by
  exact ⟨rfl, fun _ iters brk => elseRuns_eq_isEmpty iters brk⟩

/-- C6: the documentation type resolver on the specified inputs — a
`:type` marker yields its parameter binding alone; `:rtype:` yields only
the return type; `:param T name:` yields the swapped binding; `:forall:`
yields the bracketed generics text; duplicated return-type/generics
markers are resolved to the *first* match of each. -/
theorem parse_types_examples :
    parse_types ":type x: String" = ([("x", "String")], Option.none, "") ∧
    parse_types ":rtype: Int" = ([], some "Int", "") ∧
    parse_types ":param Seq[String] xs: abc" =
      ([("xs", "Seq[String]")], Option.none, "") ∧
    parse_types ":forall: T, U\n:type x: Dict[T, U]" =
      ([("x", "Dict[T, U]")], Option.none, "[T, U]") ∧
    parse_types ":rtype: A\n:rtype: B\n:forall: T\n:forall: U" =
      ([], some "A", "[T]") := by
  exact ⟨by decide, by decide, by decide, by decide, by decide⟩

/-- C7 counterexample: three unrelated failures — a failed `limitation`
check, the unsupported `^` operator, and a while-loop with an else
suite — all raise the *identical* bare `NotImplementedError` carrying no
message at all, hence reporting neither the offending node's source
position nor its syntactic kind. -/
theorem limitation_no_info_counterexample :
    limitation false = Except.error (PyErr.notImplemented Option.none) ∧
    opSym BinOpKind.BitXor =
      Except.error (PyErr.notImplemented Option.none) ∧
    visitWhile emitAtomE (nameLd "t") [] [nameLd "e"] ⟨0, ""⟩ =
      Except.error (PyErr.notImplemented Option.none) := by
  exact ⟨rfl, rfl, rfl⟩

/-- C7 (amended): failures routed through `limitation` raise a bare
`NotImplementedError` with no payload — no source position and no node
kind; only the unregistered-node-kind path (`generic_visit`) includes
the node's syntactic kind in its message (and still no source position:
the message depends only on the kind and the runtime address, not on
the node's fields). -/
theorem failure_reporting_contract :
    limitation false = Except.error (PyErr.notImplemented Option.none) ∧
    (∀ addr k fs fs',
      genericVisit addr (Value.node k fs) = genericVisit addr (Value.node k fs')) ∧
    (∀ addr k fs, ∃ pre post,
      genericVisit addr (Value.node k fs) =
        Except.error (PyErr.notImplemented (some (pre ++ k ++ post)))) := by
  refine ⟨rfl, fun _ _ _ _ => rfl, ?_⟩
  intro addr k fs
  refine ⟨"need visitor for: ", " <_ast." ++ k ++ " object at " ++ addr ++ ">", ?_⟩
  simp [genericVisit, genericVisitMsg, kindOf, String.append_assoc]

/-- C8 counterexample: a body that raises immediately leaves the
indentation column incremented — `_block` has no `try/finally`, so the
column is *not* restored when the block body exits by exception. -/
theorem block_exception_counterexample :
    pyBlock (fun t => ((some (), t) : Option Unit × EmitState)) ⟨0, ""⟩ =
      (some (), ⟨2, "\x7b\n  "⟩) ∧
    (2 : Int) ≠ 0 := by
  exact ⟨rfl, by decide⟩

/-- C8 (amended): for any block body that preserves the indentation
column, the column is restored exactly on a *normal* exit, but is left
incremented by 2 when the body exits by exception. -/
theorem block_col_restore (ε : Type) (body : EmitState → Option ε × EmitState)
    (s : EmitState) (hpres : ∀ t, ((body t).2).col = t.col) :
    ((pyBlock body s).2).col =
      (if ((pyBlock body s).1).isNone then s.col else s.col + 2) := by
  rw [pyBlock]
  have hb := hpres (wrStr (spacesStr ({ s with col := s.col + 2 } : EmitState).col)
    (wrStr "\x7b\n" { s with col := s.col + 2 }))
  cases h : body (wrStr (spacesStr ({ s with col := s.col + 2 } : EmitState).col)
      (wrStr "\x7b\n" { s with col := s.col + 2 })) with
  | mk fst snd =>
      rw [h] at hb
      cases fst with
      | none =>
          simp only []
          simp [wrStr, hb, wrStr] at *
          omega
      | some e =>
          simp only []
          simp [wrStr] at hb ⊢
          omega

/-- C8 witness: the column-restore law applied to the trivial
non-raising body at column 0. -/
theorem block_col_restore_witness :
    ((pyBlock (fun t => ((Option.none : Option Unit), t)) ⟨0, ""⟩).2).col =
      (if ((pyBlock (fun t => ((Option.none : Option Unit), t))
          ⟨0, ""⟩).1).isNone then (0 : Int) else (0 : Int) + 2) :=
  block_col_restore Unit (fun t => (Option.none, t)) ⟨0, ""⟩ (fun _ => rfl)

/-- C9: a while-loop carrying an else-suite always fails (a bare
`NotImplementedError` from `limitation(not node.orelse)`), and the
successful translation of a while-loop without else is the plain
`while (test) { body }` form — the boolean-flag else rewrite exists only
in `visit_For`. -/
theorem while_else_unsupported :
    (∀ (visit : Value → EmitState → EmitState) test body e es s,
      visitWhile visit test body (e :: es) s =
        Except.error (PyErr.notImplemented Option.none)) ∧
    (∀ (visit : Value → EmitState → EmitState) test body s,
      visitWhile visit test body [] s =
        Except.ok (suiteEmit visit body
          (wrStr ") " (visit test (wrStr "while (" s))))) := by
  exact ⟨fun _ _ _ _ _ _ => rfl, fun _ _ _ _ => rfl⟩

/-- C10: the keyword fixer appends a trailing underscore exactly to the
reserved word `match` and leaves every other identifier unchanged, and
both `visit_Name` and `visit_Attribute` emit identifiers through it. -/
theorem fix_kw_contract :
    (∀ n, fix_kw n = if n = "match" then "match_" else n) ∧
    (∀ n s, (visitName n s).out = s.out ++ fix_kw n) ∧
    (∀ (visit : Value → EmitState → EmitState) v a s,
      (visitAttribute visit v a s).out = (visit v s).out ++ "." ++ fix_kw a) ∧
    (visitName "match" ⟨0, ""⟩).out = "match_" ∧
    (visitName "print" ⟨0, ""⟩).out = "print" ∧
    (visitAttribute emitAtomE (nameLd "obj") "match" ⟨0, ""⟩).out =
      "obj.match_" := by
  refine ⟨?_, fun _ _ => rfl, fun _ _ _ _ => rfl, rfl, rfl, rfl⟩
  intro n
  rw [fix_kw]
  by_cases h : n = "match"
  · rw [if_pos h, if_pos h, h]
    rfl
  · rw [if_neg h, if_neg h]
    exact String.append_empty n

end P2S
